import Mathlib

/- Verification development for the discord webhook forwarder
   (src/forwarder.py): a shallow embedding of the name extractor, the
   rule-set registry loading, and the match-and-fan-out routing engine,
   together with theorems settling the specification's claims. -/

/-! ## Character helpers -/

/-- Whitespace characters recognised by the regex class \s and by
str.strip (ASCII range; the unicode extension is not exercised here). -/
def isWsChar (c : Char) : Bool :=
  c == ' ' || c == '\t' || c == '\n' || c == '\r' || c == '\x0b' || c == '\x0c'

/-- Characters allowed in the captured token: the regex class [^\s\*]. -/
def isTokChar (c : Char) : Bool :=
  !isWsChar c && c != '*'

/-- Lowercase a list of characters (model of str.lower and of the folding
done by re.IGNORECASE on the ASCII letters of the pattern). -/
def lcs (l : List Char) : List Char :=
  l.map Char.toLower

/-- Model of Python str.lower(). -/
def pyLower (s : String) : String :=
  String.mk (lcs s.toList)

/-- Model of Python str.strip(): drop whitespace from both ends. -/
def pyStrip (s : String) : String :=
  String.mk (((s.toList.dropWhile isWsChar).reverse.dropWhile isWsChar).reverse)

/-! ## The name extractor

Model of `extract_bot_name_from_text` (src/forwarder.py:34-43), i.e. of

  re.search(r"Bot\s+(?:\*\*)?([^\s\*]+)(?:\*\*)?\s+has successfully",
            text, flags=re.IGNORECASE)

The character classes of the adjacent regex pieces are pairwise disjoint
(token characters are never whitespace and never '*', the literals start
with non-whitespace letters), so the backtracking search is equivalent to
the deterministic maximal-munch matcher written out below. -/

/-- Pattern "bot": the leading literal of the regex, lowercased. -/
def botPat : List Char := "bot".toList

/-- Pattern "has successfully": the closing literal of the regex, lowercased. -/
def hasPat : List Char := "has successfully".toList

/-- Match a lowercase literal pattern case-insensitively at the head of the
input, returning the remainder. -/
def dropLitCI : List Char → List Char → Option (List Char)
  | [], s => some s
  | _ :: _, [] => none
  | p :: ps, c :: cs => if c.toLower = p then dropLitCI ps cs else none

/-- Consume an optional markdown bold marker: the regex piece (?:\*\*)? .
Consuming a leading "**" when present is the only branch that can succeed,
because neither a token character nor a whitespace character is '*'. -/
def dropStars (s : List Char) : List Char :=
  match s with
  | c1 :: c2 :: r => if c1 = '*' ∧ c2 = '*' then r else c1 :: c2 :: r
  | s => s

/-- The regex piece \s+ : require at least one whitespace character and
return the input with its maximal leading whitespace run removed. -/
def reqWs (s : List Char) : Option (List Char) :=
  if (s.takeWhile isWsChar).isEmpty then none
  else some (s.dropWhile isWsChar)

/-- The regex piece ([^\s\*]+) : require at least one token character;
return the captured maximal run and the remainder. -/
def reqTok (s : List Char) : Option (List Char × List Char) :=
  if (s.takeWhile isTokChar).isEmpty then none
  else some (s.takeWhile isTokChar, s.dropWhile isTokChar)

/-- Anchored match of the regex at the start of the input, returning the
captured group: the literal "Bot", then \s+, then the optional "**", the
captured token, the optional "**", \s+, and the literal "has successfully". -/
def matchAt (s : List Char) : Option (List Char) :=
  (dropLitCI botPat s).bind fun s1 =>
    (reqWs s1).bind fun s2 =>
      (reqTok (dropStars s2)).bind fun Ts4 =>
        (reqWs (dropStars Ts4.2)).bind fun s6 =>
          (dropLitCI hasPat s6).bind fun _ => some Ts4.1

/-- Unanchored scan, leftmost match first: model of re.search. -/
def searchBot : List Char → Option (List Char)
  | [] => none
  | c :: rest =>
    match matchAt (c :: rest) with
    | some T => some T
    | none => searchBot rest

/-- Model of extract_bot_name_from_text (src/forwarder.py:34-43): guard on
empty input, then search for the bot-name pattern and return the captured
token with its original casing. -/
def extract_bot_name_from_text (text : String) : Option String :=
  if text = "" then none
  else (searchBot text.toList).map (fun T => String.mk T)

/-! ## Spec-side characterization of the extractor (from the claim's words) -/

/-- Spec side: a non-empty run of whitespace characters. -/
def IsWsRun (l : List Char) : Prop :=
  l ≠ [] ∧ ∀ c ∈ l, isWsChar c = true

/-- Spec side: a non-empty token containing no whitespace and no '*'. -/
def IsToken (l : List Char) : Prop :=
  l ≠ [] ∧ ∀ c ∈ l, isTokChar c = true

/-- Spec side: an optional markdown bold emphasis marker. -/
def IsStars (l : List Char) : Prop :=
  l = [] ∨ l = ['*', '*']

/-- Spec side, modelled from the claim's words: the input begins with the
word "Bot" (case-insensitively), whitespace, optionally "**", the token T
(non-empty, containing no whitespace and no '*'), optionally "**",
whitespace, and the literal phrase "has successfully" (case-insensitively). -/
def MatchHere (s T : List Char) : Prop :=
  ∃ b w1 e1 e2 w2 hs rest,
    s = b ++ (w1 ++ (e1 ++ (T ++ (e2 ++ (w2 ++ (hs ++ rest)))))) ∧
    lcs b = botPat ∧ IsWsRun w1 ∧ IsStars e1 ∧ IsToken T ∧
    IsStars e2 ∧ IsWsRun w2 ∧ lcs hs = hasPat

/-- Spec side: T is the token of the first (leftmost) occurrence of the
pattern in s. -/
def SpecFirstToken (s T : List Char) : Prop :=
  ∃ p, MatchHere (s.drop p) T ∧ ∀ q T2, MatchHere (s.drop q) T2 → p ≤ q

/-! ## Rule-set registry loading -/

/-- Model of load_names (src/forwarder.py:17-31) applied to the lines of a
readable file: each line is stripped; non-blank results are lowercased and
added to the set. -/
def load_names (lines : List String) : Finset String :=
  lines.foldl
    (fun names line =>
      if pyStrip line ≠ "" then insert (pyLower (pyStrip line)) names else names)
    ∅

/-- Spec side (from the claim's words): take each line, trim surrounding
whitespace, drop lines blank after trimming, lowercase the remainder, and
collapse duplicates. -/
def specNames (lines : List String) : Finset String :=
  (((lines.map pyStrip).filter (fun n => n ≠ "")).map pyLower).toFinset

/-! ## Environment-driven registry construction -/

/-- Webhook client configuration: one destination's webhook URL list and
identifier set (the "webhook" and "names" entries of clients_config). -/
structure ClientConfig where
  webhook : List String
  names : Finset String
deriving DecidableEq

/-- Model of os.getenv over a key-unique association list of environment
variables. -/
def pyGetenv (env : List (String × String)) (k : String) : Option String :=
  (env.find? (fun kv => kv.1 == k)).map (fun kv => kv.2)

/-- Model of str.startswith. -/
def strStartsWith (s p : String) : Bool :=
  p.toList.isPrefixOf s.toList

/-- Model of the slice key[n:]. -/
def strDrop (s : String) (n : Nat) : String :=
  String.mk (s.toList.drop n)

/-- Model of os.path.isabs on POSIX paths. -/
def isAbsPath (p : String) : Bool :=
  strStartsWith p "/"

/-- Model of os.path.join(base_dir, p) for the shapes used here. -/
def resolvePath (base p : String) : String :=
  if isAbsPath p then p else base ++ "/" ++ p

/-- Reading an identifier-list file through load_names: none models a
missing (or unreadable-at-open) file, for which load_names returns the
empty set after logging its diagnostic. -/
def load_names_at (fs : String → Option (List String)) (path : String) : Finset String :=
  match fs path with
  | none => ∅
  | some lines => load_names lines

/-- Model of the webhook list parsing (src/forwarder.py:179):
value.split(',') with each entry stripped and blank entries dropped. -/
def parseWebhooks (value : String) : List String :=
  ((value.splitOn ",").map pyStrip).filter (fun u => u ≠ "")

/-- One iteration of the load_clients_from_env loop
(src/forwarder.py:160-184): for a WEBHOOK_<NAME> variable, look up
LIST_<NAME>; when that variable is missing or empty the loop continues
after a warning (the destination is skipped); otherwise the identifier
file is loaded (empty set when absent) and the destination is registered
with its parsed webhook list. -/
def load_clients_step (base : String) (env : List (String × String))
    (fs : String → Option (List String)) (clients : List (String × ClientConfig))
    (kv : String × String) : List (String × ClientConfig) :=
  if strStartsWith kv.1 "WEBHOOK_" then
    match pyGetenv env ("LIST_" ++ strDrop kv.1 8) with
    | none => clients
    | some raw =>
      if raw = "" then clients
      else
        clients ++ [(strDrop kv.1 8,
          { webhook := parseWebhooks kv.2,
            names := load_names_at fs (resolvePath base raw) })]
  else clients

/-- Model of load_clients_from_env (src/forwarder.py:143-186): fold the
loop body over the environment entries in order, starting from the empty
registry. -/
def load_clients_from_env (base : String) (env : List (String × String))
    (fs : String → Option (List String)) : List (String × ClientConfig) :=
  env.foldl (load_clients_step base env fs) []

/-- The contribution of a single environment entry to the registry. -/
def clientOfKV (base : String) (env : List (String × String))
    (fs : String → Option (List String)) (kv : String × String) :
    Option (String × ClientConfig) :=
  if strStartsWith kv.1 "WEBHOOK_" then
    match pyGetenv env ("LIST_" ++ strDrop kv.1 8) with
    | none => none
    | some raw =>
      if raw = "" then none
      else some (strDrop kv.1 8,
        { webhook := parseWebhooks kv.2,
          names := load_names_at fs (resolvePath base raw) })
  else none

/-! ## Inbound events -/

/-- A rich-content footer block (the embed footer dict): the "text" key is
optional. -/
structure Footer where
  text : Option String
deriving DecidableEq

/-- A rich-content author block (the embed author dict): the "name" key is
optional. -/
structure Author where
  name : Option String
deriving DecidableEq

/-- One field of a rich-content block: both keys are optional. -/
structure EmbedField where
  name : Option String
  value : Option String
deriving DecidableEq

/-- One rich-content block, as the dictionary produced by e.to_dict():
every section may be missing. -/
structure Embed where
  description : Option String
  title : Option String
  footer : Option Footer
  author : Option Author
  fields : Option (List EmbedField)
deriving DecidableEq

/-- An inbound event as seen by Forwarder.on_message. -/
structure Message where
  authorIsSelf : Bool
  channelId : Nat
  content : Option String
  embeds : List Embed
deriving DecidableEq

/-! ## Candidate fragment assembly (src/forwarder.py:93-111) -/

/-- The loop body for one embed field (src/forwarder.py:107-111): append
the truthy name, then the truthy value. -/
def field_step (acc : List String) (f : EmbedField) : List String :=
  let accn := match f.name with
    | some nm => if nm ≠ "" then acc ++ [nm] else acc
    | none => acc
  match f.value with
  | some v => if v ≠ "" then accn ++ [v] else accn
  | none => accn

/-- The candidates appended for one rich-content block
(src/forwarder.py:94-111), in code order: the truthy description, the
truthy title, the footer text whenever the footer dict has a "text" key,
the author name whenever the author dict has a "name" key, then each
field's truthy name and truthy value. -/
def embed_candidates (acc : List String) (e : Embed) : List String :=
  let acc1 := match e.description with
    | some d => if d ≠ "" then acc ++ [d] else acc
    | none => acc
  let acc2 := match e.title with
    | some t => if t ≠ "" then acc1 ++ [t] else acc1
    | none => acc1
  let acc3 := match e.footer with
    | some f =>
      match f.text with
      | some t => acc2 ++ [t]
      | none => acc2
    | none => acc2
  let acc4 := match e.author with
    | some a =>
      match a.name with
      | some nm => acc3 ++ [nm]
      | none => acc3
    | none => acc3
  (e.fields.getD []).foldl field_step acc4

/-- The full candidate list (src/forwarder.py:93): the primary content
first (the empty string when falsy), then the sections of each embed. -/
def text_candidates (m : Message) : List String :=
  m.embeds.foldl embed_candidates [m.content.getD ""]

/-- Spec side: the fragments contributed by one embed field. -/
def field_frags (f : EmbedField) : List String :=
  (match f.name with
   | some nm => if nm ≠ "" then [nm] else []
   | none => []) ++
  (match f.value with
   | some v => if v ≠ "" then [v] else []
   | none => [])

/-- Spec side, with the order amended to the code's: for one block the
description, the title, the footer text, the author name, then the
fields. -/
def fragmentsOfEmbed (e : Embed) : List String :=
  (match e.description with
   | some d => if d ≠ "" then [d] else []
   | none => []) ++
  (match e.title with
   | some t => if t ≠ "" then [t] else []
   | none => []) ++
  (match e.footer.bind Footer.text with
   | some t => [t]
   | none => []) ++
  (match e.author.bind Author.name with
   | some nm => [nm]
   | none => []) ++
  (e.fields.getD []).flatMap field_frags

/-- Spec side (amended): fragment list in the code's per-block order. -/
def amended_fragments (m : Message) : List String :=
  (m.content.getD "") :: m.embeds.flatMap fragmentsOfEmbed

/-- Modelled from the claim's words: fragments with each block's sections
in the order (title, description, footer text, author name, fields); the
counterexample shows this is not the code's order. -/
def claim_fragments (m : Message) : List String :=
  (m.content.getD "") :: m.embeds.flatMap (fun e =>
    (match e.title with
     | some t => if t ≠ "" then [t] else []
     | none => []) ++
    (match e.description with
     | some d => if d ≠ "" then [d] else []
     | none => []) ++
    (match e.footer.bind Footer.text with
     | some t => [t]
     | none => []) ++
    (match e.author.bind Author.name with
     | some nm => [nm]
     | none => []) ++
    (e.fields.getD []).flatMap field_frags)

/-! ## The extraction loop and the matching loop (src/forwarder.py:113-140) -/

/-- The extraction loop (src/forwarder.py:113-118): run the extractor on
each candidate, stopping at the first truthy result, and count the
extractor invocations; when no early break occurs the loop keeps the last
result (which the caller then discards as falsy). -/
def extract_first : List String → Nat × Option String
  | [] => (0, none)
  | [t] => (1, extract_bot_name_from_text t)
  | t :: t2 :: rest =>
    match extract_bot_name_from_text t with
    | some nm =>
      if nm ≠ "" then (1, some nm)
      else ((extract_first (t2 :: rest)).1 + 1, (extract_first (t2 :: rest)).2)
    | none => ((extract_first (t2 :: rest)).1 + 1, (extract_first (t2 :: rest)).2)

/-- One iteration of the matching loop (src/forwarder.py:129-137): when the
lowercased name is in the client's identifier set, record the match (the
"Match found" log) and append the client's webhook URLs as delivery
attempts. -/
def route_step (lname : String) (acc : List String × List String)
    (c : String × ClientConfig) : List String × List String :=
  if lname ∈ c.2.names then (acc.1 ++ c.2.webhook, acc.2 ++ [c.1]) else acc

/-- The matching loop over all configured clients in registry order:
returns the delivery attempts in order and the matched destinations in
order. -/
def route (clients : List (String × ClientConfig)) (lname : String) :
    List String × List String :=
  clients.foldl (route_step lname) ([], [])

/-- The observable outcome of processing one inbound event: the webhook
delivery attempts in order, the matched destinations, and the number of
extractor invocations. -/
structure RouteResult where
  deliveries : List String
  matched : List String
  extractions : Nat
deriving DecidableEq

/-- Model of Forwarder.on_message (src/forwarder.py:83-140): drop events
from the bot itself or from other channels, assemble the candidates, run
the extraction loop, lowercase the result, and run the matching loop. -/
def on_message (source_channel_id : Nat) (clients_config : List (String × ClientConfig))
    (m : Message) : RouteResult :=
  if m.authorIsSelf then ⟨[], [], 0⟩
  else if m.channelId ≠ source_channel_id then ⟨[], [], 0⟩
  else
    match (extract_first (text_candidates m)).2 with
    | none => ⟨[], [], (extract_first (text_candidates m)).1⟩
    | some bot_name =>
      if bot_name = "" then ⟨[], [], (extract_first (text_candidates m)).1⟩
      else
        ⟨(route clients_config (pyLower bot_name)).1,
         (route clients_config (pyLower bot_name)).2,
         (extract_first (text_candidates m)).1⟩

/-! ## Delivery with a fallible sink (src/forwarder.py:46-58) -/

/-- Model of send_to_webhook (src/forwarder.py:46-58): the send may raise
(the Except value), but the exception is caught and logged inside the
function, which therefore returns normally in both cases (true = success
logged, false = failure logged); no retry is attempted. -/
def send_to_webhook (outcome : Except String Unit) : Bool :=
  match outcome with
  | Except.ok _ => true
  | Except.error _ => false

/-- The matching loop with the delivery sink threaded through: each
delivery attempt records its URL and the caught outcome of the send. -/
def route_run_step (send : String → Except String Unit) (lname : String)
    (acc : List (String × Bool) × List String) (c : String × ClientConfig) :
    List (String × Bool) × List String :=
  if lname ∈ c.2.names then
    (acc.1 ++ c.2.webhook.map (fun u => (u, send_to_webhook (send u))), acc.2 ++ [c.1])
  else acc

/-- The matching loop of on_message with the sink threaded through. -/
def route_run (send : String → Except String Unit)
    (clients : List (String × ClientConfig)) (lname : String) :
    List (String × Bool) × List String :=
  clients.foldl (route_run_step send lname) ([], [])

/-- on_message with the delivery sink threaded through: the attempts with
their outcomes, and the matched destinations. -/
def on_message_run (send : String → Except String Unit) (source_channel_id : Nat)
    (clients_config : List (String × ClientConfig)) (m : Message) :
    List (String × Bool) × List String :=
  if m.authorIsSelf then ([], [])
  else if m.channelId ≠ source_channel_id then ([], [])
  else
    match (extract_first (text_candidates m)).2 with
    | none => ([], [])
    | some bot_name =>
      if bot_name = "" then ([], [])
      else route_run send clients_config (pyLower bot_name)

/-! ## The Forwarder state (src/forwarder.py:61-81) -/

/-- The mutable attributes of the Forwarder object set in __init__
(src/forwarder.py:75-76). -/
structure ForwarderState where
  source_channel_id : Nat
  clients_config : List (String × ClientConfig)
deriving DecidableEq

/-- Forwarder.on_message as a state transformer: the handler reads
self.source_channel_id and self.clients_config and contains no assignment
to self or to the configuration, so it returns the state it received. -/
def on_message_st (st : ForwarderState) (m : Message) : ForwarderState × RouteResult :=
  (st, on_message st.source_channel_id st.clients_config m)

/-! ## Checked (KeyError-aware) candidate assembly for C10 -/

/-- Guarded dictionary access: ok when the key is present, an error naming
the key otherwise (the error models a Python KeyError). -/
def dget {α : Type} (o : Option α) (key : String) : Except String α :=
  match o with
  | some v => Except.ok v
  | none => Except.error key

/-- A guarded truthy-string section (the pattern of
src/forwarder.py:96-99 and 108-111): test key presence with the in
operator, access the key through dget, and append the value when truthy. -/
def opt_truthy_checked (key : String) (o : Option String) (acc : List String) :
    Except String (List String) :=
  if o.isSome then
    (dget o key).bind fun s =>
      if s ≠ "" then Except.ok (acc ++ [s]) else Except.ok acc
  else Except.ok acc

/-- A guarded nested section (the pattern of src/forwarder.py:101-105):
test the outer key, access the outer dict, test the inner key, access the
inner value, and append it (no truthiness test, as in the code). -/
def section_checked {α : Type} (outerKey innerKey : String) (o : Option α)
    (proj : α → Option String) (acc : List String) : Except String (List String) :=
  if o.isSome then
    (dget o outerKey).bind fun x =>
      if (proj x).isSome then
        (dget (proj x) innerKey).bind fun t => Except.ok (acc ++ [t])
      else Except.ok acc
  else Except.ok acc

/-- The field loop body with every dictionary access routed through dget,
mirroring the guards of src/forwarder.py:107-111. -/
def field_step_checked (acc : List String) (f : EmbedField) : Except String (List String) :=
  (opt_truthy_checked "name" f.name acc).bind fun accn =>
    opt_truthy_checked "value" f.value accn

/-- The per-embed assembly with every dictionary access routed through
dget, mirroring the guards of src/forwarder.py:94-111. -/
def embed_candidates_checked (acc : List String) (e : Embed) : Except String (List String) :=
  (opt_truthy_checked "description" e.description acc).bind fun acc1 =>
    (opt_truthy_checked "title" e.title acc1).bind fun acc2 =>
      (section_checked "footer" "text" e.footer Footer.text acc2).bind fun acc3 =>
        (section_checked "author" "name" e.author Author.name acc3).bind fun acc4 =>
          (e.fields.getD []).foldlM field_step_checked acc4

/-- The full checked candidate assembly. -/
def text_candidates_checked (m : Message) : Except String (List String) :=
  m.embeds.foldlM embed_candidates_checked [m.content.getD ""]

/-! ## Concrete events used by counterexamples and witnesses -/

/-- An event whose embed has both a title and a description, each carrying
a different extractable token. -/
def mC3 : Message :=
  { authorIsSelf := false, channelId := 1, content := some "",
    embeds := [{ description := some "Bot Beta has successfully claimed",
                 title := some "Bot Alpha has successfully claimed",
                 footer := none, author := none, fields := none }] }

/-- An event whose primary content carries the token "foo". -/
def mFoo : Message :=
  { authorIsSelf := false, channelId := 5, content := some "Bot foo has successfully claimed",
    embeds := [] }

/-- An event whose primary content carries the token "Foo". -/
def mFooCased : Message :=
  { authorIsSelf := false, channelId := 7, content := some "Bot Foo has successfully hatched",
    embeds := [] }

/-- An event from the bot's own identity. -/
def mSelf : Message :=
  { authorIsSelf := true, channelId := 1, content := some "Bot foo has successfully claimed",
    embeds := [] }

/-- An event with degenerate rich-content blocks: no description, no
title, a footer without a "text" key, an author without a "name" key, and
a field without a name. -/
def mC10 : Message :=
  { authorIsSelf := false, channelId := 1, content := some "",
    embeds := [{ description := none, title := none,
                 footer := some { text := none }, author := some { name := none },
                 fields := some [{ name := none, value := some "x" }] }] }

/-! ## Lemmas about the extractor pieces -/

theorem takeWhile_mem_true {p : Char → Bool} : ∀ l : List Char, ∀ c ∈ l.takeWhile p, p c = true := by
  intro l
  induction l with
  | nil => intro c hc; simp [List.takeWhile] at hc
  | cons a l ih =>
    intro c hc
    by_cases hpa : p a = true
    · rw [List.takeWhile_cons_of_pos hpa] at hc
      rcases List.mem_cons.mp hc with rfl | hc
      · exact hpa
      · exact ih c hc
    · rw [List.takeWhile_cons_of_neg hpa] at hc
      simp at hc

theorem dropWhile_head_false {p : Char → Bool} : ∀ l : List Char, ∀ c, (l.dropWhile p).head? = some c → p c = false := by
  intro l
  induction l with
  | nil => intro c hc; simp [List.dropWhile] at hc
  | cons a l ih =>
    intro c hc
    by_cases hpa : p a = true
    · rw [List.dropWhile_cons_of_pos hpa] at hc
      exact ih c hc
    · rw [List.dropWhile_cons_of_neg hpa] at hc
      simp at hc
      subst hc
      exact Bool.not_eq_true _ ▸ (by simpa using hpa)

theorem takeWhile_append_all {p : Char → Bool} : ∀ l t : List Char,
    (∀ c ∈ l, p c = true) → (∀ c, t.head? = some c → p c = false) →
    (l ++ t).takeWhile p = l ∧ (l ++ t).dropWhile p = t := by
  intro l
  induction l with
  | nil =>
    intro t _ ht
    cases t with
    | nil => simp
    | cons a t =>
      have ha : p a = false := ht a rfl
      simp [List.takeWhile_cons, List.dropWhile_cons, ha]
  | cons a l ih =>
    intro t hl ht
    have ha : p a = true := hl a (by simp)
    have := ih t (fun c hc => hl c (by simp [hc])) ht
    simp [List.takeWhile_cons, List.dropWhile_cons, ha, this.1, this.2]

theorem dropLitCI_append : ∀ b r : List Char, dropLitCI (lcs b) (b ++ r) = some r := by
  intro b
  induction b with
  | nil => intro r; rfl
  | cons c b ih =>
    intro r
    simp [lcs, dropLitCI] at ih ⊢
    exact ih r

theorem dropLitCI_eq_some : ∀ p s r : List Char, dropLitCI p s = some r → ∃ b, s = b ++ r ∧ lcs b = p := by
  intro p
  induction p with
  | nil =>
    intro s r h
    simp [dropLitCI] at h
    exact ⟨[], by simp [h], rfl⟩
  | cons pc p ih =>
    intro s r h
    cases s with
    | nil => simp [dropLitCI] at h
    | cons c cs =>
      simp only [dropLitCI] at h
      by_cases hc : c.toLower = pc
      · rw [if_pos hc] at h
        obtain ⟨b, hb1, hb2⟩ := ih cs r h
        exact ⟨c :: b, by simp [hb1], by simpa [lcs, hc] using hb2⟩
      · rw [if_neg hc] at h
        cases h

theorem dropStars_stars (r : List Char) : dropStars ('*' :: '*' :: r) = r := by
  simp [dropStars]

theorem dropStars_no_star : ∀ s : List Char, (∀ c, s.head? = some c → c ≠ '*') → dropStars s = s := by
  intro s h
  rcases s with _ | ⟨c1, _ | ⟨c2, r⟩⟩
  · rfl
  · rfl
  · have h1 : c1 ≠ '*' := h c1 rfl
    simp [dropStars, h1]

theorem dropStars_decomp : ∀ s : List Char, ∃ e, IsStars e ∧ s = e ++ dropStars s := by
  intro s
  rcases s with _ | ⟨c1, _ | ⟨c2, r⟩⟩
  · exact ⟨[], Or.inl rfl, rfl⟩
  · exact ⟨[], Or.inl rfl, rfl⟩
  · by_cases h : c1 = '*' ∧ c2 = '*'
    · obtain ⟨rfl, rfl⟩ := h
      exact ⟨['*', '*'], Or.inr rfl, by simp [dropStars]⟩
    · exact ⟨[], Or.inl rfl, by simp [dropStars, h]⟩

theorem reqWs_eq_some {s t : List Char} (h : reqWs s = some t) :
    ∃ w, IsWsRun w ∧ s = w ++ t ∧ ∀ c, t.head? = some c → isWsChar c = false := by
  unfold reqWs at h
  by_cases he : (s.takeWhile isWsChar).isEmpty = true
  · rw [if_pos he] at h; cases h
  · rw [if_neg he] at h
    have ht : s.dropWhile isWsChar = t := by injection h
    refine ⟨s.takeWhile isWsChar, ⟨?_, takeWhile_mem_true s⟩, ?_, ?_⟩
    · intro hnil; exact he (by simp [hnil])
    · rw [← ht, List.takeWhile_append_dropWhile]
    · intro c hc; rw [← ht] at hc; exact dropWhile_head_false s c hc

theorem reqWs_append {w t : List Char} (hw : IsWsRun w)
    (ht : ∀ c, t.head? = some c → isWsChar c = false) : reqWs (w ++ t) = some t := by
  obtain ⟨htw, hdw⟩ := takeWhile_append_all w t hw.2 ht
  unfold reqWs
  rw [htw, hdw, if_neg (fun he => hw.1 (by simpa using he))]

theorem reqTok_eq_some {s T t : List Char} (h : reqTok s = some (T, t)) :
    IsToken T ∧ s = T ++ t ∧ ∀ c, t.head? = some c → isTokChar c = false := by
  unfold reqTok at h
  by_cases he : (s.takeWhile isTokChar).isEmpty = true
  · rw [if_pos he] at h; cases h
  · rw [if_neg he] at h
    rw [Option.some.injEq, Prod.mk.injEq] at h
    obtain ⟨hT, ht⟩ := h
    refine ⟨⟨?_, ?_⟩, ?_, ?_⟩
    · intro hnil; rw [← hT] at hnil; exact he (by simp [hnil])
    · intro c hc; rw [← hT] at hc; exact takeWhile_mem_true s c hc
    · rw [← hT, ← ht, List.takeWhile_append_dropWhile]
    · intro c hc; rw [← ht] at hc; exact dropWhile_head_false s c hc

theorem reqTok_append {T t : List Char} (hT : IsToken T)
    (ht : ∀ c, t.head? = some c → isTokChar c = false) : reqTok (T ++ t) = some (T, t) := by
  obtain ⟨htw, hdw⟩ := takeWhile_append_all T t hT.2 ht
  unfold reqTok
  rw [htw, hdw, if_neg (fun he => hT.1 (by simpa using he))]

/-! ## Character class facts -/

theorem isTokChar_not_ws {c : Char} (h : isTokChar c = true) : isWsChar c = false := by
  simp [isTokChar] at h
  exact h.1

theorem isTokChar_not_star {c : Char} (h : isTokChar c = true) : c ≠ '*' := by
  simp [isTokChar] at h
  exact h.2

theorem isWsChar_not_tok {c : Char} (h : isWsChar c = true) : isTokChar c = false := by
  simp [isTokChar, h]

theorem isWsChar_ne_star {c : Char} (h : isWsChar c = true) : c ≠ '*' := by
  intro heq
  rw [heq] at h
  exact absurd h (by decide)

theorem toLower_eq_h {c : Char} (h : c.toLower = 'h') : isWsChar c = false ∧ c ≠ '*' := by
  constructor
  · by_contra hws
    have hws' : isWsChar c = true := by simpa using hws
    simp [isWsChar, or_assoc] at hws'
    rcases hws' with rfl | rfl | rfl | rfl | rfl | rfl <;> exact absurd h (by decide)
  · intro heq
    rw [heq] at h
    exact absurd h (by decide)

theorem hasPat_head {hs : List Char} (h : lcs hs = hasPat) : ∃ c r, hs = c :: r ∧ c.toLower = 'h' := by
  cases hs with
  | nil => exact absurd h (by decide)
  | cons c r =>
    refine ⟨c, r, rfl, ?_⟩
    have hh := congrArg List.head? h
    have : hasPat.head? = some 'h' := by decide
    rw [this] at hh
    simpa [lcs] using hh

/-! ## Soundness and completeness of the anchored matcher -/

theorem matchAt_eq_some {s T : List Char} (h : matchAt s = some T) : MatchHere s T := by
  simp only [matchAt, Option.bind_eq_some] at h
  obtain ⟨s1, h1, s2, h2, Ts4, h3, s6, h4, rest, h5, hT⟩ := h
  obtain ⟨T', s4⟩ := Ts4
  simp only at h4 hT
  have hTT : T' = T := by injection hT
  subst hTT
  obtain ⟨b, hb1, hb2⟩ := dropLitCI_eq_some botPat s s1 h1
  obtain ⟨w1, hw1, hs1, _⟩ := reqWs_eq_some h2
  obtain ⟨e1, he1, hds2⟩ := dropStars_decomp s2
  obtain ⟨hTtok, hs3, _⟩ := reqTok_eq_some h3
  obtain ⟨e2, he2, hds4⟩ := dropStars_decomp s4
  obtain ⟨w2, hw2, hs5, _⟩ := reqWs_eq_some h4
  obtain ⟨hsg, hs6, hhsg⟩ := dropLitCI_eq_some hasPat s6 rest h5
  refine ⟨b, w1, e1, e2, w2, hsg, rest, ?_, hb2, hw1, he1, hTtok, he2, hw2, hhsg⟩
  rw [hb1, hs1, hds2, hs3, hds4, hs5, hs6]

theorem head_cond_stars {e t : List Char} (he : IsStars e) {p : Char → Bool}
    (hstar : p '*' = false) (ht : ∀ c, t.head? = some c → p c = false) :
    ∀ c, (e ++ t).head? = some c → p c = false := by
  rcases he with rfl | rfl
  · simpa using ht
  · intro c hc
    simp at hc
    rw [← hc]
    exact hstar

theorem head_cond_tok {T t : List Char} (hT : IsToken T) {p : Char → Bool}
    (hp : ∀ c, isTokChar c = true → p c = false) :
    ∀ c, (T ++ t).head? = some c → p c = false := by
  obtain ⟨c0, T0, rfl⟩ := List.exists_cons_of_ne_nil hT.1
  intro c hc
  simp at hc
  rw [← hc]
  exact hp c0 (hT.2 c0 (by simp))

theorem head_cond_ws {w t : List Char} (hw : IsWsRun w) {p : Char → Bool}
    (hp : ∀ c, isWsChar c = true → p c = false) :
    ∀ c, (w ++ t).head? = some c → p c = false := by
  obtain ⟨c0, w0, rfl⟩ := List.exists_cons_of_ne_nil hw.1
  intro c hc
  simp at hc
  rw [← hc]
  exact hp c0 (hw.2 c0 (by simp))

theorem dropStars_stars_append {e t : List Char} (he : IsStars e)
    (ht : ∀ c, t.head? = some c → c ≠ '*') : dropStars (e ++ t) = t := by
  rcases he with rfl | rfl
  · simpa using dropStars_no_star t ht
  · simpa using dropStars_stars t

theorem MatchHere_matchAt {s T : List Char} (h : MatchHere s T) : matchAt s = some T := by
  obtain ⟨b, w1, e1, e2, w2, hsg, rest, hs, hb, hw1, he1, hT, he2, hw2, hhsg⟩ := h
  obtain ⟨hc0, hr0, hhsg_cons, hlow⟩ : ∃ c0 r0, hsg = c0 :: r0 ∧ c0.toLower = 'h' := by
    obtain ⟨c0, r0, h1, h2⟩ := hasPat_head hhsg
    exact ⟨c0, r0, h1, h2⟩
  have h1 : dropLitCI botPat (b ++ (w1 ++ (e1 ++ (T ++ (e2 ++ (w2 ++ (hsg ++ rest))))))) =
      some (w1 ++ (e1 ++ (T ++ (e2 ++ (w2 ++ (hsg ++ rest)))))) := by
    rw [← hb]
    exact dropLitCI_append b _
  have hTheadTok : ∀ c, (T ++ (e2 ++ (w2 ++ (hsg ++ rest)))).head? = some c → isTokChar c = true := by
    obtain ⟨c0, T0, rfl⟩ := List.exists_cons_of_ne_nil hT.1
    intro c hc
    simp at hc
    rw [← hc]
    exact hT.2 c0 (by simp)
  have h2 : reqWs (w1 ++ (e1 ++ (T ++ (e2 ++ (w2 ++ (hsg ++ rest)))))) =
      some (e1 ++ (T ++ (e2 ++ (w2 ++ (hsg ++ rest))))) := by
    apply reqWs_append hw1
    apply head_cond_stars he1 (by decide)
    intro c hc
    exact isTokChar_not_ws (hTheadTok c hc)
  have h3 : dropStars (e1 ++ (T ++ (e2 ++ (w2 ++ (hsg ++ rest))))) =
      T ++ (e2 ++ (w2 ++ (hsg ++ rest))) := by
    apply dropStars_stars_append he1
    intro c hc
    exact isTokChar_not_star (hTheadTok c hc)
  have hwsHead : ∀ c, (w2 ++ (hsg ++ rest)).head? = some c → isWsChar c = true := by
    obtain ⟨c0, w0, rfl⟩ := List.exists_cons_of_ne_nil hw2.1
    intro c hc
    simp at hc
    rw [← hc]
    exact hw2.2 c0 (by simp)
  have h4 : reqTok (T ++ (e2 ++ (w2 ++ (hsg ++ rest)))) = some (T, e2 ++ (w2 ++ (hsg ++ rest))) := by
    apply reqTok_append hT
    apply head_cond_stars he2 (by decide)
    intro c hc
    exact isWsChar_not_tok (hwsHead c hc)
  have h5 : dropStars (e2 ++ (w2 ++ (hsg ++ rest))) = w2 ++ (hsg ++ rest) := by
    apply dropStars_stars_append he2
    intro c hc
    exact isWsChar_ne_star (hwsHead c hc)
  have h6 : reqWs (w2 ++ (hsg ++ rest)) = some (hsg ++ rest) := by
    apply reqWs_append hw2
    intro c hc
    rw [hhsg_cons] at hc
    simp at hc
    rw [← hc]
    exact (toLower_eq_h hlow).1
  have h7 : dropLitCI hasPat (hsg ++ rest) = some rest := by
    rw [← hhsg]
    exact dropLitCI_append hsg rest
  rw [hs]
  simp only [matchAt, h1, Option.some_bind, h2, h3, h4, h5, h6, h7]

theorem matchAt_iff {s T : List Char} : matchAt s = some T ↔ MatchHere s T :=
  ⟨matchAt_eq_some, MatchHere_matchAt⟩

/-! ## The unanchored search finds the leftmost match -/

theorem matchAt_nil : matchAt ([] : List Char) = none := by decide

theorem not_MatchHere_of_none {s : List Char} (h : matchAt s = none) : ∀ T, ¬ MatchHere s T := by
  intro T hM
  rw [MatchHere_matchAt hM] at h
  cases h

theorem searchBot_iff : ∀ s T : List Char, searchBot s = some T ↔ SpecFirstToken s T := by
  intro s
  induction s with
  | nil =>
    intro T
    constructor
    · intro h; cases h
    · rintro ⟨p, hp, -⟩
      rw [List.drop_nil] at hp
      exact absurd (MatchHere_matchAt hp) (by simp [matchAt_nil])
  | cons c r ih =>
    intro T
    cases hm : matchAt (c :: r) with
    | some T1 =>
      have hM : MatchHere (c :: r) T1 := matchAt_eq_some hm
      constructor
      · intro h
        have hTT : T1 = T := by
          have : searchBot (c :: r) = some T1 := by simp [searchBot, hm]
          rw [this] at h
          injection h
        subst hTT
        exact ⟨0, by simpa using hM, fun q T2 _ => Nat.zero_le q⟩
      · rintro ⟨p, hp, hmin⟩
        have hp0 : p = 0 := Nat.le_zero.mp (hmin 0 T1 (by simpa using hM))
        subst hp0
        rw [List.drop_zero] at hp
        have := MatchHere_matchAt hp
        rw [hm] at this
        have hTT : T1 = T := by injection this
        simp [searchBot, hm, hTT]
    | none =>
      have hne := not_MatchHere_of_none hm
      constructor
      · intro h
        have h2 : searchBot r = some T := by
          have : searchBot (c :: r) = searchBot r := by simp [searchBot, hm]
          rw [this] at h
          exact h
        obtain ⟨p, hp, hmin⟩ := (ih T).mp h2
        refine ⟨p + 1, by simpa using hp, ?_⟩
        intro q T2 hq
        cases q with
        | zero => exact absurd (by simpa using hq) (hne T2)
        | succ q1 => exact Nat.succ_le_succ (hmin q1 T2 (by simpa using hq))
      · rintro ⟨p, hp, hmin⟩
        cases p with
        | zero => exact absurd (by simpa using hp) (hne T)
        | succ p1 =>
          have hrest : SpecFirstToken r T :=
            ⟨p1, by simpa using hp,
             fun q T2 hq => Nat.le_of_succ_le_succ (hmin (q + 1) T2 (by simpa using hq))⟩
          have := (ih T).mpr hrest
          simp [searchBot, hm, this]

theorem mk_toList (t : String) : String.mk t.toList = t := rfl

theorem extract_eq_some_iff : ∀ text T : String,
    extract_bot_name_from_text text = some T ↔ SpecFirstToken text.toList T.toList := by
  intro text T
  unfold extract_bot_name_from_text
  by_cases h0 : text = ""
  · subst h0
    rw [if_pos rfl]
    constructor
    · intro h; cases h
    · rintro ⟨p, hp, -⟩
      rw [show ("" : String).toList = [] from rfl, List.drop_nil] at hp
      exact absurd (MatchHere_matchAt hp) (by simp [matchAt_nil])
  · rw [if_neg h0]
    constructor
    · intro h
      obtain ⟨l, hl, hmk⟩ := Option.map_eq_some'.mp h
      have := (searchBot_iff text.toList l).mp hl
      rw [← hmk]
      simpa using this
    · intro h
      have hl : searchBot text.toList = some T.toList := (searchBot_iff _ _).mpr h
      rw [hl]
      simp [mk_toList]

theorem extract_ne_empty : ∀ text T : String, extract_bot_name_from_text text = some T → T ≠ "" := by
  intro text T h heq
  subst heq
  obtain ⟨p, hp, -⟩ := (extract_eq_some_iff text "").mp h
  obtain ⟨b, w1, e1, e2, w2, hsg, rest, -, -, -, -, hT, -, -, -⟩ := hp
  exact hT.1 rfl

/-- C2 (amended): extract_bot_name_from_text returns some T exactly when T is
the token of the first (leftmost) occurrence in the text of the pattern
"Bot", whitespace, optionally "**", a non-empty token without whitespace or
'*', optionally "**", whitespace, "has successfully" (case-insensitively),
with T kept in its original casing and the wrapping "**" stripped; the text
"Bot **Foo** has successfully claimed" yields "Foo" (amended from "any text
containing" that phrase, which is refuted by the counterexample), "Bot Bar
has successfully hatched" yields "Bar", a text without the pattern yields
nothing, and "Bot has successfully" yields nothing. -/
theorem C2_extractor :
    (∀ text T : String,
       extract_bot_name_from_text text = some T ↔ SpecFirstToken text.toList T.toList) ∧
    extract_bot_name_from_text "Bot **Foo** has successfully claimed" = some "Foo" ∧
    extract_bot_name_from_text "Bot Bar has successfully hatched" = some "Bar" ∧
    (∀ text : String, (∀ p T, ¬ MatchHere (text.toList.drop p) T) →
       extract_bot_name_from_text text = none) ∧
    extract_bot_name_from_text "Bot has successfully" = none := by
  refine ⟨extract_eq_some_iff, by decide, by decide, ?_, by decide⟩
  intro text hno
  cases h : extract_bot_name_from_text text with
  | none => rfl
  | some T =>
    obtain ⟨p, hp, -⟩ := (extract_eq_some_iff text T).mp h
    exact absurd hp (hno p T.toList)

/-- C2 counterexample: the claim "any text containing
"Bot **Foo** has successfully claimed" yields "Foo"" is false: a text that
contains that phrase but carries an earlier occurrence of the pattern
yields the earlier token "A" instead. -/
theorem C2_counterexample :
    "Bot A has successfully " ++ "Bot **Foo** has successfully claimed" =
      "Bot A has successfully Bot **Foo** has successfully claimed" ∧
    extract_bot_name_from_text
      "Bot A has successfully Bot **Foo** has successfully claimed" = some "A" ∧
    some "A" ≠ some "Foo" := by
  refine ⟨rfl, by decide, by decide⟩

/-- C2 witness: the characterization applied at a concrete input. -/
theorem C2_witness : SpecFirstToken ("Bot Qux has successfully z".toList) ("Qux".toList) :=
  (C2_extractor.1 "Bot Qux has successfully z" "Qux").mp (by decide)

theorem load_names_foldl_eq : ∀ (lines : List String) (acc : Finset String),
    lines.foldl
      (fun names line =>
        if pyStrip line ≠ "" then insert (pyLower (pyStrip line)) names else names)
      acc = acc ∪ specNames lines := by
  intro lines
  induction lines with
  | nil => intro acc; simp [specNames]
  | cons l ls ih =>
    intro acc
    simp only [List.foldl_cons]
    by_cases h : pyStrip l ≠ ""
    · rw [if_pos h, ih]
      have hspec : specNames (l :: ls) = insert (pyLower (pyStrip l)) (specNames ls) := by
        simp [specNames, List.filter_cons, h]
      rw [hspec, Finset.union_insert, Finset.insert_union]
    · rw [if_neg h, ih]
      have hspec : specNames (l :: ls) = specNames ls := by
        simp [specNames, List.filter_cons, h]
      rw [hspec]

/-- C4: loading an identifier-list file produces exactly the set of its
lines trimmed, with blanks dropped, lowercased and deduplicated; the file
with lines "Foo", "foo", "", "  Bar  " yields {"foo", "bar"}. -/
theorem C4_load_names :
    (∀ lines : List String, load_names lines = specNames lines) ∧
    load_names ["Foo", "foo", "", "  Bar  "] = {"foo", "bar"} := by
  constructor
  · intro lines
    unfold load_names
    rw [load_names_foldl_eq, Finset.empty_union]
  · decide

theorem load_clients_step_eq (base : String) (env : List (String × String))
    (fs : String → Option (List String)) (clients : List (String × ClientConfig))
    (kv : String × String) :
    load_clients_step base env fs clients kv =
      match clientOfKV base env fs kv with
      | none => clients
      | some c => clients ++ [c] := by
  unfold load_clients_step clientOfKV
  split
  · split
    · rfl
    · split
      · rfl
      · rfl
  · rfl

theorem load_clients_foldl_eq (base : String) (env : List (String × String))
    (fs : String → Option (List String)) :
    ∀ (entries : List (String × String)) (acc : List (String × ClientConfig)),
    entries.foldl (load_clients_step base env fs) acc =
      acc ++ entries.filterMap (clientOfKV base env fs) := by
  intro entries
  induction entries with
  | nil => intro acc; simp
  | cons kv rest ih =>
    intro acc
    simp only [List.foldl_cons, load_clients_step_eq]
    cases h : clientOfKV base env fs kv with
    | none =>
      rw [ih, List.filterMap_cons_none h]
    | some c =>
      rw [ih, List.filterMap_cons_some h]
      simp

theorem load_clients_eq_filterMap (base : String) (env : List (String × String))
    (fs : String → Option (List String)) :
    load_clients_from_env base env fs = env.filterMap (clientOfKV base env fs) := by
  unfold load_clients_from_env
  rw [load_clients_foldl_eq base env fs env []]
  simp

theorem isPrefixOf_self_append : ∀ l t : List Char, l.isPrefixOf (l ++ t) = true := by
  intro l t
  induction l with
  | nil => simp [List.isPrefixOf]
  | cons a l ih => simp [List.isPrefixOf, ih]

theorem toList_append (s t : String) : (s ++ t).toList = s.toList ++ t.toList :=
  String.data_append s t

theorem strStartsWith_webhook (n : String) : strStartsWith ("WEBHOOK_" ++ n) "WEBHOOK_" = true := by
  unfold strStartsWith
  rw [toList_append]
  exact isPrefixOf_self_append _ _

theorem strDrop_webhook (n : String) : strDrop ("WEBHOOK_" ++ n) 8 = n := by
  unfold strDrop
  rw [toList_append]
  rw [show (8 : Nat) = ("WEBHOOK_".toList).length from rfl, List.drop_left, mk_toList]

/-- C5 (amended): the registry is the independent per-entry filterMap of
the environment, so each destination's registration proceeds regardless of
the others; a WEBHOOK_<NAME> entry whose LIST_<NAME> variable is set and
non-empty is registered even when the identifier file itself is absent or
unreadable, in which case its identifier set is empty (with a diagnostic
from load_names); but when LIST_<NAME> itself is missing the entry is
skipped after a warning and contributes no registration at all. -/
theorem C5_registration (base : String) (env : List (String × String))
    (fs : String → Option (List String)) (n v : String) :
    (load_clients_from_env base env fs = env.filterMap (clientOfKV base env fs)) ∧
    (∀ p : String, pyGetenv env ("LIST_" ++ n) = some p → p ≠ "" →
       fs (resolvePath base p) = none → ("WEBHOOK_" ++ n, v) ∈ env →
       ((n, { webhook := parseWebhooks v, names := ∅ }) : String × ClientConfig) ∈
         load_clients_from_env base env fs) ∧
    (pyGetenv env ("LIST_" ++ n) = none →
       clientOfKV base env fs ("WEBHOOK_" ++ n, v) = none) := by
  refine ⟨load_clients_eq_filterMap base env fs, ?_, ?_⟩
  · intro p hlist hp hfs hmem
    rw [load_clients_eq_filterMap base env fs, List.mem_filterMap]
    refine ⟨("WEBHOOK_" ++ n, v), hmem, ?_⟩
    simp only [clientOfKV, strStartsWith_webhook n, strDrop_webhook n, hlist, if_true,
      load_names_at, hfs, if_neg hp]
  · intro hnone
    simp only [clientOfKV, strStartsWith_webhook n, strDrop_webhook n, hnone, if_true]

/-- C5 counterexample: WEBHOOK_X is present but LIST_X is not set at all;
the claim says X is then still registered with an empty identifier set,
but load_clients_from_env registers nothing (the loop continues past the
entry). -/
theorem C5_counterexample :
    load_clients_from_env "/app" [("WEBHOOK_X", "http://u")] (fun _ => none) = [] := by
  rfl

/-- C5 witness: a destination whose list file is missing is registered with
an empty identifier set. -/
theorem C5_witness :
    (("X", { webhook := parseWebhooks "u", names := ∅ }) : String × ClientConfig) ∈
      load_clients_from_env "/b" [("WEBHOOK_X", "u"), ("LIST_X", "f.txt")] (fun _ => none) :=
  (C5_registration "/b" [("WEBHOOK_X", "u"), ("LIST_X", "f.txt")] (fun _ => none) "X" "u").2.1
    "f.txt" (by decide) (by decide) rfl (by decide)

/-! ## Claims about the routing engine -/

/-- C7: an event authored by the bot's own identity, or whose channel
differs from the configured source channel, is dropped immediately: zero
extractor invocations and zero deliveries. -/
theorem C7_filters (src : Nat) (clients : List (String × ClientConfig)) (m : Message)
    (h : m.authorIsSelf = true ∨ m.channelId ≠ src) :
    on_message src clients m = ⟨[], [], 0⟩ := by
  rcases h with h | h
  · simp [on_message, h]
  · unfold on_message
    by_cases ha : m.authorIsSelf
    · rw [if_pos ha]
    · rw [if_neg ha, if_pos h]

/-- C7 witness: a self-authored event is dropped. -/
theorem C7_witness : on_message 1 [] mSelf = ⟨[], [], 0⟩ :=
  C7_filters 1 [] mSelf (Or.inl rfl)

/-- C1: with destination A having identifiers {"foo"} and targets [u1] and
destination B having identifiers {"foo","bar"} and targets [u2,u3], an
event passing the filters whose extracted token is "foo" produces delivery
attempts to exactly u1, u2, u3 in that order (A before B in registry
order, u2 before u3 in target order) and the matched destinations are A
and B. -/
theorem C1_fanout (src : Nat) (A B u1 u2 u3 : String) (m : Message)
    (hself : m.authorIsSelf = false) (hch : m.channelId = src)
    (hex : (extract_first (text_candidates m)).2 = some "foo") :
    on_message src [(A, { webhook := [u1], names := {"foo"} }),
                    (B, { webhook := [u2, u3], names := {"foo", "bar"} })] m =
      ⟨[u1, u2, u3], [A, B], (extract_first (text_candidates m)).1⟩ := by
  have hpl : pyLower "foo" = "foo" := by decide
  simp [on_message, hself, hch, hex, hpl, route, route_step]

/-- C1 witness: the fan-out on a concrete event and registry. -/
theorem C1_witness :
    on_message 5 [("A", { webhook := ["u1"], names := {"foo"} }),
                  ("B", { webhook := ["u2", "u3"], names := {"foo", "bar"} })] mFoo =
      ⟨["u1", "u2", "u3"], ["A", "B"], (extract_first (text_candidates mFoo)).1⟩ :=
  C1_fanout 5 "A" "B" "u1" "u2" "u3" mFoo rfl rfl (by decide)

/-- C6: an event passing the filters whose extracted token, lowercased, is
in the identifier set of a destination with an empty target list yields
that destination in the matched set while producing zero delivery
attempts: the destination is inert but valid. -/
theorem C6_inert (src : Nat) (nameA tok : String) (ids : Finset String) (m : Message)
    (hself : m.authorIsSelf = false) (hch : m.channelId = src)
    (hex : (extract_first (text_candidates m)).2 = some tok) (htok : tok ≠ "")
    (hmem : pyLower tok ∈ ids) :
    on_message src [(nameA, { webhook := [], names := ids })] m =
      ⟨[], [nameA], (extract_first (text_candidates m)).1⟩ := by
  simp [on_message, hself, hch, hex, htok, route, route_step, hmem]

/-- C6 witness: an inert destination matched by a concrete event. -/
theorem C6_witness :
    on_message 7 [("C", { webhook := [], names := {"foo"} })] mFooCased =
      ⟨[], ["C"], (extract_first (text_candidates mFooCased)).1⟩ :=
  C6_inert 7 "C" "Foo" {"foo"} mFooCased rfl rfl (by decide) (by decide) (by decide)

/-- C9: processing an event never mutates the forwarder state (the source
channel id and the clients configuration), so replaying the same event
against the resulting state yields an identical result: no deduplication
and no memory of prior events. -/
theorem C9_no_mutation (st : ForwarderState) (m : Message) :
    ((on_message_st st m).1 = st) ∧
    ((on_message_st ((on_message_st st m).1) m).2 = (on_message_st st m).2) :=
  ⟨rfl, rfl⟩

theorem route_run_foldl (send : String → Except String Unit) (lname : String) :
    ∀ (clients : List (String × ClientConfig)) (a : List (String × Bool)) (b : List String),
    ((clients.foldl (route_run_step send lname) (a, b)).1.map Prod.fst =
      (clients.foldl (route_step lname) (a.map Prod.fst, b)).1) ∧
    ((clients.foldl (route_run_step send lname) (a, b)).2 =
      (clients.foldl (route_step lname) (a.map Prod.fst, b)).2) := by
  intro clients
  induction clients with
  | nil => intro a b; exact ⟨rfl, rfl⟩
  | cons c rest ih =>
    intro a b
    simp only [List.foldl_cons, route_run_step, route_step]
    by_cases h : lname ∈ c.2.names
    · rw [if_pos h, if_pos h]
      have hmap : (a ++ c.2.webhook.map (fun u => (u, send_to_webhook (send u)))).map Prod.fst
          = a.map Prod.fst ++ c.2.webhook := by
        have hcomp : (Prod.fst ∘ fun u => (u, send_to_webhook (send u))) = fun u : String => u := rfl
        simp [List.map_map, hcomp]
      have := ih (a ++ c.2.webhook.map (fun u => (u, send_to_webhook (send u)))) (b ++ [c.1])
      rw [hmap] at this
      exact this
    · rw [if_neg h, if_neg h]
      exact ih a b

theorem on_message_run_eq (send : String → Except String Unit) (src : Nat)
    (clients : List (String × ClientConfig)) (m : Message) :
    ((on_message_run send src clients m).1.map Prod.fst = (on_message src clients m).deliveries) ∧
    ((on_message_run send src clients m).2 = (on_message src clients m).matched) := by
  by_cases ha : m.authorIsSelf
  · simp [on_message, on_message_run, ha]
  · by_cases hc : m.channelId = src
    · cases hx : (extract_first (text_candidates m)).2 with
      | none => simp [on_message, on_message_run, ha, hc, hx]
      | some bn =>
        by_cases hb : bn = ""
        · simp [on_message, on_message_run, ha, hc, hx, hb]
        · have hr := route_run_foldl send (pyLower bn) clients [] []
          simp only [List.map_nil] at hr
          simp [on_message, on_message_run, ha, hc, hx, hb, route_run, route]
          exact ⟨hr.1, hr.2⟩
    · simp [on_message, on_message_run, ha, hc]

/-- C8: the delivery-sink outcome never influences routing: whatever the
per-URL outcomes (each send either succeeds or raises, and the exception
is caught inside send_to_webhook, which returns normally either way), the
sequence of attempted URLs equals the pure delivery list, the matched
destinations are unchanged, and two runs with arbitrarily different sink
outcomes attempt exactly the same URLs — so one failure prevents neither
the remaining targets of the same destination nor other destinations, no
retry is added, and processing completes normally for the event. -/
theorem C8_failure_isolation (send send2 : String → Except String Unit) (src : Nat)
    (clients : List (String × ClientConfig)) (m : Message) :
    ((on_message_run send src clients m).1.map Prod.fst = (on_message src clients m).deliveries) ∧
    ((on_message_run send src clients m).2 = (on_message src clients m).matched) ∧
    ((on_message_run send src clients m).1.map Prod.fst =
       (on_message_run send2 src clients m).1.map Prod.fst) :=
  ⟨(on_message_run_eq send src clients m).1, (on_message_run_eq send src clients m).2,
   by rw [(on_message_run_eq send src clients m).1, (on_message_run_eq send2 src clients m).1]⟩

theorem field_step_eq (acc : List String) (f : EmbedField) :
    field_step acc f = acc ++ field_frags f := by
  rcases f with ⟨fn, fv⟩
  unfold field_step field_frags
  rcases fn with - | nm <;> rcases fv with - | v <;> simp only [] <;>
    first
    | (split_ifs <;> simp)
    | simp

theorem fields_foldl : ∀ (fields : List EmbedField) (acc : List String),
    fields.foldl field_step acc = acc ++ fields.flatMap field_frags := by
  intro fields
  induction fields with
  | nil => intro acc; simp
  | cons f rest ih =>
    intro acc
    simp only [List.foldl_cons, field_step_eq]
    rw [ih]
    simp

theorem embed_candidates_eq (acc : List String) (e : Embed) :
    embed_candidates acc e = acc ++ fragmentsOfEmbed e := by
  rcases e with ⟨d, t, ft, au, fl⟩
  unfold embed_candidates fragmentsOfEmbed
  rw [fields_foldl]
  rcases d with - | d <;> rcases t with - | t <;>
    rcases ft with - | ⟨- | ftx⟩ <;> rcases au with - | ⟨- | aun⟩ <;>
    simp only [Option.bind] <;>
    first
    | (split_ifs <;> simp)
    | simp

theorem embeds_foldl : ∀ (embeds : List Embed) (acc : List String),
    embeds.foldl embed_candidates acc = acc ++ embeds.flatMap fragmentsOfEmbed := by
  intro embeds
  induction embeds with
  | nil => intro acc; simp
  | cons e rest ih =>
    intro acc
    simp only [List.foldl_cons, embed_candidates_eq]
    rw [ih]
    simp

theorem text_candidates_eq (m : Message) : text_candidates m = amended_fragments m := by
  unfold text_candidates amended_fragments
  rw [embeds_foldl]
  simp

theorem extract_first_snd : ∀ cs : List String,
    (extract_first cs).2 = cs.findSome? extract_bot_name_from_text := by
  intro cs
  induction cs with
  | nil => rfl
  | cons t rest ih =>
    cases rest with
    | nil =>
      cases h : extract_bot_name_from_text t <;> simp [extract_first, List.findSome?, h]
    | cons t2 rest2 =>
      cases h : extract_bot_name_from_text t with
      | none => simp [extract_first, List.findSome?, h, ih]
      | some nm =>
        have hne : nm ≠ "" := extract_ne_empty t nm h
        simp [extract_first, List.findSome?, h, hne]

/-- C3 (amended): the candidate fragments are the primary content first,
then for each rich-content block its sections in the code's order —
description, title, footer text, author name, then each field's name and
value (the claim put the title before the description, which the
counterexample refutes); the extractor runs over the fragments in order
and stops at the first one yielding a token; when no fragment yields a
token, an event passing the filters is routed to nothing: zero deliveries
and zero matches. -/
theorem C3_fragments (src : Nat) (clients : List (String × ClientConfig)) (m : Message) :
    (text_candidates m = amended_fragments m) ∧
    ((extract_first (text_candidates m)).2 =
       (text_candidates m).findSome? extract_bot_name_from_text) ∧
    (m.authorIsSelf = false → m.channelId = src →
       (text_candidates m).findSome? extract_bot_name_from_text = none →
       on_message src clients m = ⟨[], [], (extract_first (text_candidates m)).1⟩) := by
  refine ⟨text_candidates_eq m, extract_first_snd (text_candidates m), ?_⟩
  intro hself hch hnone
  have hx : (extract_first (text_candidates m)).2 = none := by
    rw [extract_first_snd]
    exact hnone
  simp [on_message, hself, hch, hx]

/-- C3 counterexample: for an embed carrying both a title and a
description, the code collects the description before the title, so the
fragment order claimed by the spec (title first) is wrong and the
extracted token differs. -/
theorem C3_counterexample :
    text_candidates mC3 =
      ["", "Bot Beta has successfully claimed", "Bot Alpha has successfully claimed"] ∧
    claim_fragments mC3 =
      ["", "Bot Alpha has successfully claimed", "Bot Beta has successfully claimed"] ∧
    text_candidates mC3 ≠ claim_fragments mC3 ∧
    (extract_first (text_candidates mC3)).2 = some "Beta" ∧
    (extract_first (claim_fragments mC3)).2 = some "Alpha" :=
  ⟨by decide, by decide, by decide, by decide, by decide⟩

/-- C3 witness: an event whose fragments carry no token is routed to
nothing. -/
theorem C3_witness :
    on_message 1 [] mC10 = ⟨[], [], (extract_first (text_candidates mC10)).1⟩ :=
  (C3_fragments 1 [] mC10).2.2 rfl rfl (by decide)

theorem except_ok_bind {α β γ : Type} (a : α) (f : α → Except γ β) :
    (Except.ok a : Except γ α).bind f = f a := rfl

theorem opt_truthy_checked_eq (key : String) (o : Option String) (acc : List String) :
    opt_truthy_checked key o acc =
      Except.ok (match o with
        | some s => if s ≠ "" then acc ++ [s] else acc
        | none => acc) := by
  cases o with
  | none => rfl
  | some s =>
    show (if s ≠ "" then Except.ok (acc ++ [s]) else Except.ok acc) =
      Except.ok (if s ≠ "" then acc ++ [s] else acc)
    by_cases hs : s ≠ ""
    · rw [if_pos hs, if_pos hs]
    · rw [if_neg hs, if_neg hs]

theorem section_checked_eq {α : Type} (k1 k2 : String) (o : Option α)
    (proj : α → Option String) (acc : List String) :
    section_checked k1 k2 o proj acc =
      Except.ok (match o with
        | some x =>
          match proj x with
          | some t => acc ++ [t]
          | none => acc
        | none => acc) := by
  cases o with
  | none => rfl
  | some x =>
    show (if (proj x).isSome = true then
            (dget (proj x) k2).bind fun t => Except.ok (acc ++ [t])
          else Except.ok acc) =
      Except.ok (match proj x with | some t => acc ++ [t] | none => acc)
    cases hp : proj x with
    | none => rfl
    | some t => rfl

theorem field_step_checked_eq (acc : List String) (f : EmbedField) :
    field_step_checked acc f = Except.ok (field_step acc f) := by
  unfold field_step_checked field_step
  rw [opt_truthy_checked_eq, except_ok_bind, opt_truthy_checked_eq]

theorem fields_foldlM_eq : ∀ (fields : List EmbedField) (acc : List String),
    fields.foldlM field_step_checked acc = Except.ok (fields.foldl field_step acc) := by
  intro fields
  induction fields with
  | nil => intro acc; rfl
  | cons f rest ih =>
    intro acc
    rw [List.foldlM_cons, field_step_checked_eq, List.foldl_cons]
    exact ih (field_step acc f)

theorem embed_candidates_checked_eq (acc : List String) (e : Embed) :
    embed_candidates_checked acc e = Except.ok (embed_candidates acc e) := by
  unfold embed_candidates_checked embed_candidates
  rw [opt_truthy_checked_eq, except_ok_bind, opt_truthy_checked_eq, except_ok_bind,
    section_checked_eq, except_ok_bind, section_checked_eq, except_ok_bind,
    fields_foldlM_eq]
  rcases e with ⟨d, t, ft, au, fl⟩
  rcases au with - | ⟨- | aun⟩ <;> rcases ft with - | ⟨- | ftx⟩ <;> rfl

theorem embeds_foldlM_eq : ∀ (embeds : List Embed) (acc : List String),
    embeds.foldlM embed_candidates_checked acc = Except.ok (embeds.foldl embed_candidates acc) := by
  intro embeds
  induction embeds with
  | nil => intro acc; rfl
  | cons e rest ih =>
    intro acc
    rw [List.foldlM_cons, embed_candidates_checked_eq, List.foldl_cons]
    exact ih (embed_candidates acc e)

theorem text_candidates_checked_eq (m : Message) :
    text_candidates_checked m = Except.ok (text_candidates m) := by
  unfold text_candidates_checked text_candidates
  exact embeds_foldlM_eq m.embeds [m.content.getD ""]

/-- C10: assembling the candidate fragments is total over arbitrary embed
shapes — every dictionary access is guarded, so the KeyError-aware
assembly always returns ok with exactly the code's fragments — and an
event with missing or empty primary content contributes the empty string
as the first fragment, which the extractor rejects through its empty-input
guard. -/
theorem C10_totality (m : Message) :
    (text_candidates_checked m = Except.ok (text_candidates m)) ∧
    ((m.content = none ∨ m.content = some "") → (text_candidates m).head? = some "") ∧
    extract_bot_name_from_text "" = none := by
  refine ⟨text_candidates_checked_eq m, ?_, rfl⟩
  intro h
  rw [text_candidates_eq]
  unfold amended_fragments
  rcases h with h | h <;> rw [h] <;> rfl

/-- C10 witness: the checked assembly succeeds on an event whose embed
lacks a description, a title, a footer text key, an author name key and a
field name, and whose empty content heads the fragments. -/
theorem C10_witness :
    text_candidates_checked mC10 = Except.ok (text_candidates mC10) ∧
    (text_candidates mC10).head? = some "" :=
  ⟨(C10_totality mC10).1, (C10_totality mC10).2.1 (Or.inr rfl)⟩
